import Mathlib

/-!
Verification of the audit-engine core (`src/audit-engine.js`) of the
codebru-speed-audit repository: page discovery, per-page metric extraction,
the findings/fixes rule engine, score aggregation and the run orchestrator.

The JavaScript source is shallowly embedded: JS numbers that can be `NaN`
(the mean load time of an empty audit list) are `Option ℚ` with `none`
playing the role of `NaN` (every comparison with `NaN` is false); counts are
`ℕ`; byte sizes are `ℤ` (the `parseInt` value of the content-length header,
with a missing header modelled as `0`, matching the `|| 0` in the source);
fallible operations return `Option`/`Except`.  Dynamic interpolated message
strings (the `issue`/`metric` fields of findings, `toFixed` formatting, the
run timestamp and the constant `nextSteps` marketing block) are elided;
findings are identified by their constant `impact`/`category`/`threshold`
fields and fixes carry all four source fields.
-/

namespace SpeedAudit

/-- A JS number that may be `NaN`: `none` is `NaN`. -/
abbrev JSNum := Option ℚ

/-- JS `x <= c`: false when `x` is `NaN`. -/
def jsLe (x : JSNum) (c : ℚ) : Bool :=
  match x with
  | some q => decide (q ≤ c)
  | none => false

/-- JS `sum / n` for a sum of `n` list elements: the only way the code divides
by zero is `0 / 0` on an empty list, which is `NaN` (`none`). -/
def jsAvg (sum : ℚ) (n : ℕ) : JSNum :=
  if n = 0 then none else some (sum / n)

/-- JS `x > c` where `x` may be `undefined` (modelled `none`): comparisons with
`undefined` coerce to `NaN` and are false. -/
def jsGtOpt (x : Option ℤ) (c : ℤ) : Bool :=
  match x with
  | some n => decide (c < n)
  | none => false

/-! ## Model of the WHATWG `URL` parser

The code calls the platform's `new URL(...)`.  We model the parser to the
depth the code exercises: scheme validation (parse fails — JS throws — when
the string has no valid scheme followed by a colon, e.g. `new
URL("example.com")` throws), lower-casing of the scheme, and a decomposition
into protocol (scheme plus colon), host and path.  Userinfo, ports,
percent-encoding and host canonicalisation are not modelled. -/

structure URLRec where
  /-- Like JS `url.protocol`: the lower-cased scheme including the trailing colon. -/
  protocol : String
  host : String
  path : String
deriving DecidableEq

/-- Split a character list at the first colon, returning the part before it
and the part after it; `none` when there is no colon. -/
def takeScheme : List Char → Option (List Char × List Char)
  | [] => none
  | c :: rest =>
    if c = ':' then some ([], rest)
    else
      match takeScheme rest with
      | some (sch, r) => some (c :: sch, r)
      | none => none

/-- First character of a URL scheme: an ASCII letter. -/
def isSchemeStart (c : Char) : Bool := c.isAlpha

/-- Subsequent characters of a URL scheme. -/
def isSchemeChar (c : Char) : Bool :=
  c.isAlphanum || c = '+' || c = '-' || c = '.'

/-- Model of `new URL(s)`: `none` when the JS constructor throws. -/
def newURL (s : String) : Option URLRec :=
  match takeScheme s.toList with
  | none => none
  | some (sch, rest) =>
    match sch with
    | [] => none
    | c0 :: cs =>
      if isSchemeStart c0 && cs.all isSchemeChar then
        let afterSlashes :=
          match rest with
          | '/' :: '/' :: t => t
          | t => t
        let host := afterSlashes.takeWhile fun c => !(c = '/' || c = '?' || c = '#')
        let path := afterSlashes.drop host.length
        some ⟨String.mk ((c0 :: cs).map Char.toLower) ++ ":", String.mk host, String.mk path⟩
      else none

/-- JS template `${urlObj.protocol}//${urlObj.host}` from `discoverMoneyPages`. -/
def baseHost (u : URLRec) : String := u.protocol ++ "//" ++ u.host

/-- Model of `validUrl.toString()` on the URLs the engine builds. -/
def urlToString (u : URLRec) : String := u.protocol ++ "//" ++ u.host ++ u.path

/-! ## Scorer -/

/-- `calculateScore(loadTime)` from the source: a chain of `<=` comparisons;
a `NaN` load time (empty audit list) fails every comparison and scores 30. -/
def calculateScore (loadTime : JSNum) : ℤ :=
  if jsLe loadTime 2 then 90
  else if jsLe loadTime 3 then 75
  else if jsLe loadTime 4 then 60
  else if jsLe loadTime 5 then 45
  else 30

/-- `getRecommendation(score)` from the source. -/
def getRecommendation (score : ℤ) : String :=
  if 75 ≤ score then "Good performance, minor optimizations recommended"
  else if 50 ≤ score then "Moderate performance issues that should be addressed"
  else "Significant performance issues affecting user experience"

/-- The scorer as the spec states it (§4.6): a step function on the mean load
time with tiers `≤2`, `2<t≤3`, `3<t≤4`, `4<t≤5` and `>5`.  Used only to be
compared against `calculateScore`. -/
def scoreSpec (t : ℚ) : ℤ :=
  if t ≤ 2 then 90
  else if 2 < t ∧ t ≤ 3 then 75
  else if 3 < t ∧ t ≤ 4 then 60
  else if 4 < t ∧ t ≤ 5 then 45
  else 30

/-! ## Findings engine (`generateFindings`)

The source builds two arrays by pushing through a chain of independent
`if` blocks, appends a fallback pair when no finding was pushed, and finally
sorts the fixes with the stable JS `Array.prototype.sort` under the
comparator `(a.priority || 99) - (b.priority || 99)`.  The push sequence is
transcribed as a concatenation of per-rule segments. -/

/-- The `largestResource` object as read by `generateFindings`: its
`resourceType` and the `parseInt` value of its recorded size. -/
structure ResourceInfo where
  type : String
  size : ℤ
deriving DecidableEq

/-- A finding, identified by its constant fields (the interpolated
`issue`/`metric` message strings are elided). -/
structure Finding where
  impact : String
  category : String
  threshold : String
deriving DecidableEq

structure Fix where
  action : String
  detail : String
  difficulty : String
  /-- `none` models an absent `priority` property. -/
  priority : Option ℤ
deriving DecidableEq

/-- The object literal `auditPage` passes to `generateFindings`.  `totalSize`
is `Option` because `auditPage` never sets it: the rule-4 comparison then
reads `undefined` (`none`). -/
structure FindingsData where
  loadTime : ℚ
  totalRequests : ℕ
  imageCount : ℕ
  scriptCount : ℕ
  thirdPartyScripts : ℕ
  largestResource : Option ResourceInfo
  totalSize : Option ℤ
  hasForms : Bool
deriving DecidableEq

structure FindingsResult where
  findings : List Finding
  fixes : List Fix
deriving DecidableEq

/-- The JS comparator key `a.priority || 99`: an absent priority — and, as
`||` is falsy on `0`, a zero priority — counts as 99. -/
def fixKey (f : Fix) : ℤ :=
  match f.priority with
  | some p => if p = 0 then 99 else p
  | none => 99

/-- Ordering of fixes induced by the sort comparator. -/
def fixLE (a b : Fix) : Prop := fixKey a ≤ fixKey b

instance : DecidableRel fixLE := fun a b => inferInstanceAs (Decidable (fixKey a ≤ fixKey b))

instance : IsTotal Fix fixLE := ⟨fun a b => le_total (fixKey a) (fixKey b)⟩

instance : IsTrans Fix fixLE := ⟨fun _ _ _ h h2 => le_trans h h2⟩

/-- The fallback finding (rule 8). -/
def fallbackFinding : Finding := ⟨"low", "general", "Target: Optimized mobile experience"⟩

/-- The fallback fix (rule 8). -/
def fallbackFix : Fix :=
  ⟨"Implement basic performance optimizations",
   "Compress images, minify CSS/JS, enable gzip compression, optimize loading strategy",
   "easy", some 1⟩

/-- The findings pushed by rules 1-7, in push order. -/
def emittedFindings (data : FindingsData) : List Finding :=
  (if 4 < data.loadTime then [⟨"critical", "performance", "Target: <3s"⟩]
   else if 2.5 < data.loadTime then [⟨"high", "performance", "Target: <2.5s"⟩]
   else [])
  ++ (match data.largestResource with
      | some r => if 1000000 < r.size then [⟨"high", "resources", "Target: <1MB"⟩] else []
      | none => [])
  ++ (if 100 < data.totalRequests then [⟨"high", "resources", "Target: <50 requests"⟩]
      else if 50 < data.totalRequests then [⟨"medium", "resources", "Target: <30 requests"⟩]
      else [])
  ++ (if jsGtOpt data.totalSize 5000000 then [⟨"high", "resources", "Target: <3MB"⟩] else [])
  ++ (if 8 < data.thirdPartyScripts then [⟨"high", "third-party", "Target: <5 scripts"⟩]
      else if 5 < data.thirdPartyScripts then [⟨"medium", "third-party", "Target: <3 scripts"⟩]
      else [])
  ++ (if data.hasForms then [⟨"medium", "usability", "Target: Full mobile optimization"⟩] else [])
  ++ (if 30 < data.imageCount then [⟨"medium", "resources", "Target: <20 images"⟩] else [])

/-- The fixes pushed by rules 1-7, in push order. -/
def emittedFixes (data : FindingsData) : List Fix :=
  (if 4 < data.loadTime then
    [⟨"Implement critical resource prioritization",
      "Load essential content first, defer everything else", "medium", some 1⟩]
   else [])
  ++ (match data.largestResource with
      | some r =>
        if 1000000 < r.size then
          if r.type = "image" then
            [⟨"Optimize and compress the large image",
              "Use modern formats (WebP/AVIF), resize for mobile screens, implement lazy loading",
              "easy", some 1⟩]
          else if r.type = "script" then
            [⟨"Split the large JavaScript bundle",
              "Use code splitting, tree shaking, and load non-critical code after page render",
              "medium", some 2⟩]
          else []
        else []
      | none => [])
  ++ (if 100 < data.totalRequests then
        [⟨"Bundle and minimize HTTP requests",
          "Combine CSS/JS files, use CSS sprites for icons, implement resource bundling",
          "medium", some 2⟩]
      else [])
  ++ (if jsGtOpt data.totalSize 5000000 then
        [⟨"Reduce total page weight",
          "Compress images, minify CSS/JS, remove unused code, use modern formats",
          "medium", some 2⟩]
      else [])
  ++ (if 8 < data.thirdPartyScripts then
        [⟨"Audit and reduce third-party scripts",
          "Remove unnecessary tracking, defer analytics scripts, combine similar tools",
          "easy", some 2⟩]
      else if 5 < data.thirdPartyScripts then
        [⟨"Defer non-critical third-party scripts",
          "Load analytics and tracking scripts after main content is visible",
          "easy", some 3⟩]
      else [])
  ++ (if data.hasForms then
        [⟨"Optimize forms for mobile",
          "Add autocomplete attributes, proper input types, clear labels, and touch-friendly sizing",
          "easy", some 3⟩]
      else [])
  ++ (if 30 < data.imageCount then
        [⟨"Implement image lazy loading and optimization",
          "Load images only when needed, compress all images, use modern formats",
          "easy", some 3⟩]
      else [])

/-- The `fixes` array right before `fixes.sort(...)`: rule fixes plus the
fallback fix pushed exactly when no finding was pushed. -/
def fixesBeforeSort (data : FindingsData) : List Fix :=
  emittedFixes data ++ (if emittedFindings data = [] then [fallbackFix] else [])

/-- `generateFindings(data)` from the source: the rule segments, the
fallback block, and the stable sort of the fixes by priority. -/
def generateFindings (data : FindingsData) : FindingsResult :=
  { findings :=
      if emittedFindings data = [] then [fallbackFinding] else emittedFindings data
  , fixes := List.insertionSort fixLE (fixesBeforeSort data) }

/-! ## Page discovery (`discoverMoneyPages`)

The network is abstracted as a probe function `String → Option ℕ` giving the
status of the HEAD request for a URL; `none` models a fetch that throws
(timeout, DNS failure), which the source silently skips. -/

structure CandidatePage where
  url : String
  type : String
  label : String
deriving DecidableEq

/-- JS `s.replace(needle, repl)` with single-character string arguments:
replaces only the first occurrence. -/
def replaceFirstChar (needle repl : Char) : List Char → List Char
  | [] => []
  | c :: cs => if c = needle then repl :: cs else c :: replaceFirstChar needle repl cs

/-- JS `s.replace(needle, "")` with a single-character needle: removes only
the first occurrence. -/
def removeFirstChar (needle : Char) : List Char → List Char
  | [] => []
  | c :: cs => if c = needle then cs else c :: removeFirstChar needle cs

/-- JS `s.charAt(0).toUpperCase()`: empty string stays empty. -/
def headUpper : List Char → List Char
  | [] => []
  | c :: _ => [c.toUpper]

/-- The label expression from `discoverMoneyPages`:
`pattern.replace('/','').replace('-',' ').charAt(0).toUpperCase() +
pattern.slice(2).replace('-',' ')`. -/
def pageLabel (pattern : String) : String :=
  String.mk (headUpper (replaceFirstChar '-' ' ' (removeFirstChar '/' pattern.toList))
    ++ replaceFirstChar '-' ' ' (pattern.toList.drop 2))

/-- The label derivation as the spec states it, amended to the behaviour of
the JS single-occurrence `replace`: strip the leading slash, replace the
first hyphen with a space, capitalize the first letter.  Used only to be
compared against `pageLabel`. -/
def labelAmended (pattern : String) : String :=
  let stripped :=
    match pattern.toList with
    | '/' :: t => t
    | l => l
  String.mk
    (match replaceFirstChar '-' ' ' stripped with
     | [] => []
     | c :: t => c.toUpper :: t)

/-- The `PAGE_PATTERNS` table, in JS `Object.entries` (insertion) order. -/
def PAGE_PATTERNS : List (String × List String) :=
  [("saas", ["/pricing", "/plans", "/demo", "/signup", "/sign-up", "/register", "/get-started"]),
   ("ecommerce", ["/products", "/shop", "/store", "/cart", "/checkout"]),
   ("booking", ["/book", "/booking", "/schedule", "/appointment", "/reserve"]),
   ("contact", ["/contact", "/contact-us", "/get-in-touch"])]

/-- The CandidatePage object pushed when a pattern probe returns 200. -/
def mkPage (host category pattern : String) : CandidatePage :=
  ⟨host ++ pattern, category, pageLabel pattern⟩

/-- The inner pattern loop of `discoverMoneyPages`: probe patterns in order,
emit on the first status-200 response and stop (`break`); errors and non-200
statuses are skipped. -/
def tryPatterns (probe : String → Option ℕ) (host category : String) :
    List String → Option CandidatePage
  | [] => none
  | p :: rest =>
    if probe (host ++ p) == some 200 then some (mkPage host category p)
    else tryPatterns probe host category rest

/-- The outer category loop of `discoverMoneyPages`. -/
def discoverLoop (probe : String → Option ℕ) (host : String) :
    List (String × List String) → List CandidatePage
  | [] => []
  | (category, patterns) :: rest =>
    match tryPatterns probe host category patterns with
    | some pg => pg :: discoverLoop probe host rest
    | none => discoverLoop probe host rest

/-- The homepage entry always pushed first. -/
def homepageEntry (baseUrl : String) : CandidatePage := ⟨baseUrl, "homepage", "Homepage"⟩

/-- `discoverMoneyPages(baseUrl)` from the source.  The `none` branch of the
URL parse is unreachable from `runAudit` (which only passes URLs it already
parsed); the JS code would throw there. -/
def discoverMoneyPages (probe : String → Option ℕ) (baseUrl : String) : List CandidatePage :=
  match newURL baseUrl with
  | none => []
  | some u => homepageEntry baseUrl :: discoverLoop probe (baseHost u) PAGE_PATTERNS

/-! ## Per-page audit (`auditPage`) and the orchestrator (`runAudit`) -/

/-- One captured network request, after the response handler has attached
status and size.  `size` is the `parseInt` value of the content-length
header; a missing header is `0` (the `|| 0` in the source). -/
structure NetworkEvent where
  url : String
  type : String
  method : String
  status : Option ℤ
  size : ℤ
deriving DecidableEq

/-- What one successful page drive returns to the core: the captured events,
the elapsed navigation plus settle time in seconds, and the form signal. -/
structure DriveResult where
  events : List NetworkEvent
  loadTime : ℚ
  hasForms : Bool

/-- The `metrics` summary object of a page audit (`largestResourceSize`
megabyte formatting elided: the raw byte size is kept). -/
structure Metrics where
  totalRequests : ℕ
  images : ℕ
  scripts : ℕ
  stylesheets : ℕ
  thirdPartyScripts : ℕ
  largestResourceSize : Option ℤ

/-- One per-page audit record, already merged with the discovery entry
(`{...audit, pageType: page.type, pageLabel: page.label}` in `runAudit`). -/
structure PageAudit where
  url : String
  loadTime : ℚ
  metrics : Metrics
  findings : FindingsResult
  pageType : String
  pageLabel : String

/-- `auditPage(page.url, ...)` from the source, applied to the result of a
successful page drive, merged with the discovery entry.  Note the object
passed to `generateFindings` carries no `totalSize` field (`none`). -/
def auditPage (page : CandidatePage) (r : DriveResult) : PageAudit :=
  let requests := r.events
  let imageRequests := requests.filter fun e => e.type == "image"
  let scriptRequests := requests.filter fun e => e.type == "script"
  let stylesheetRequests := requests.filter fun e => e.type == "stylesheet"
  let sortedBySize :=
    List.insertionSort (fun a b : NetworkEvent => -a.size ≤ -b.size)
      (requests.filter fun e => e.size != 0)
  let largestResource := sortedBySize.head?
  let pageHost := ((newURL page.url).map URLRec.host).getD ""
  let thirdPartyScripts := scriptRequests.filter fun e =>
    match newURL e.url with
    | some u => u.host != pageHost
    | none => false
  let findings := generateFindings
    { loadTime := r.loadTime
    , totalRequests := requests.length
    , imageCount := imageRequests.length
    , scriptCount := scriptRequests.length
    , thirdPartyScripts := thirdPartyScripts.length
    , largestResource := largestResource.map fun e => ⟨e.type, e.size⟩
    , totalSize := none
    , hasForms := r.hasForms }
  { url := page.url
  , loadTime := r.loadTime
  , metrics :=
      { totalRequests := requests.length
      , images := imageRequests.length
      , scripts := scriptRequests.length
      , stylesheets := stylesheetRequests.length
      , thirdPartyScripts := thirdPartyScripts.length
      , largestResourceSize := largestResource.map NetworkEvent.size }
  , findings := findings
  , pageType := page.type
  , pageLabel := page.label }

/-- The `summary` object of a report (`toFixed(2)` formatting of the average
elided; the timestamp, an external clock read, is elided). -/
structure Summary where
  pagesAudited : ℕ
  averageLoadTime : JSNum
  recommendation : String

/-- The report object `runAudit` returns (constant `nextSteps` block elided). -/
structure Report where
  url : String
  score : ℤ
  summary : Summary
  pages : List PageAudit

/-- The report assembly at the end of `runAudit`: the mean of the per-page
load times (`NaN` when no page succeeded), the score and the recommendation.
There is no empty-list check in the source. -/
def buildReport (baseUrl : String) (audits : List PageAudit) : Report :=
  let avgLoadTime := jsAvg (audits.foldl (fun s a => s + a.loadTime) 0) audits.length
  let score := calculateScore avgLoadTime
  { url := baseUrl
  , score := score
  , summary :=
      { pagesAudited := audits.length
      , averageLoadTime := avgLoadTime
      , recommendation := getRecommendation score }
  , pages := audits }

/-- The two run-level throw sites of `runAudit`.  There is no
`NoPagesSucceeded` variant: the source has no such error. -/
inductive RunError where
  | invalidUrl
  | unreachable
deriving DecidableEq

/-- `pre` is a leading piece of `s` (character lists). -/
def startsWithChars : List Char → List Char → Bool
  | _, [] => true
  | [], _ :: _ => false
  | c :: cs, p :: ps => c = p && startsWithChars cs ps

/-- Model of JS `s.startsWith(pre)`. -/
def jsStartsWith (s pre : String) : Bool := startsWithChars s.toList pre.toList

/-- The external collaborators of one run: the reachability probe
(`validateSite`), the discovery HEAD probe, and the page driver (`none`
models a page whose drive throws; such a page is skipped). -/
structure Env where
  validateSite : String → Bool
  probe : String → Option ℕ
  drive : String → Option DriveResult

/-- `runAudit(url)` from the source: parse the URL (throw on failure), force
a non-http protocol to `https:`, reachability-check, discover pages, audit
each discovered page skipping the ones whose drive fails, and always build a
report from whatever audits remain. -/
def runAudit (env : Env) (url : String) : Except RunError Report :=
  match newURL url with
  | none => Except.error RunError.invalidUrl
  | some u0 =>
    let validUrl := if jsStartsWith u0.protocol "http" then u0 else { u0 with protocol := "https:" }
    let baseUrl := urlToString validUrl
    if env.validateSite baseUrl then
      let pages := discoverMoneyPages env.probe baseUrl
      let audits := pages.filterMap fun p => (env.drive p.url).map (auditPage p)
      Except.ok (buildReport baseUrl audits)
    else Except.error RunError.unreachable

/-- The score of a successful run, `none` for a failed run. -/
def scoreOf (r : Except RunError Report) : Option ℤ :=
  match r with
  | Except.ok rep => some rep.score
  | Except.error _ => none

/-- An environment in which the site is reachable but every page drive
fails. -/
def envNoPages : Env :=
  { validateSite := fun _ => true
  , probe := fun _ => none
  , drive := fun _ => none }

/-- An environment in which everything succeeds: every probe returns 200 and
every page drive returns an empty, instant page. -/
def envAllOk : Env :=
  { validateSite := fun _ => true
  , probe := fun _ => some 200
  , drive := fun _ => some ⟨[], 1, false⟩ }

/-! ## Theorems -/

lemma jsLe_some (t c : ℚ) : jsLe (some t) c = true ↔ t ≤ c := by
  simp [jsLe]

/-- C4: calculateScore is the deterministic step function on mean load time t
(in seconds): t ≤ 2 → 90; 2 < t ≤ 3 → 75; 3 < t ≤ 4 → 60; 4 < t ≤ 5 → 45;
t > 5 → 30, with each boundary inclusive on the lower tier (exactly 2.0
scores 90, not 75). -/
theorem calculateScore_step_function :
    (∀ t : ℚ, calculateScore (some t) = scoreSpec t) ∧
    calculateScore (some 2) = 90 ∧ calculateScore (some 3) = 75 ∧
    calculateScore (some 4) = 60 ∧ calculateScore (some 5) = 45 ∧
    calculateScore (some 2) ≠ 75 := by
  have main : ∀ t : ℚ, calculateScore (some t) = scoreSpec t := by
    intro t
    rcases le_or_lt t 2 with h1 | h1
    · simp [calculateScore, scoreSpec, jsLe, h1]
    rcases le_or_lt t 3 with h2 | h2
    · simp [calculateScore, scoreSpec, jsLe, h1.not_le, h1, h2]
    rcases le_or_lt t 4 with h3 | h3
    · simp [calculateScore, scoreSpec, jsLe, h1.not_le, h2.not_le, h1, h2, h3]
    rcases le_or_lt t 5 with h4 | h4
    · simp [calculateScore, scoreSpec, jsLe, h1.not_le, h2.not_le, h3.not_le, h1, h2, h3, h4]
    · simp [calculateScore, scoreSpec, jsLe, h1.not_le, h2.not_le, h3.not_le, h4.not_le]
  refine ⟨main, ?_, ?_, ?_, ?_, ?_⟩ <;> norm_num [calculateScore, jsLe]

/-- C9 helper: the scorer only ever returns one of the five tier values. -/
lemma calculateScore_mem (x : JSNum) :
    calculateScore x = 90 ∨ calculateScore x = 75 ∨ calculateScore x = 60 ∨
      calculateScore x = 45 ∨ calculateScore x = 30 := by
  unfold calculateScore
  split_ifs <;> simp

/-- C9: calculateScore always returns one of {90, 75, 60, 45, 30}; hence
every report built by a successful run has a score between 30 and 90
inclusive, and never 0 or 100 despite the declared 0-100 range. -/
theorem score_always_in_range :
    (∀ x : JSNum, calculateScore x = 90 ∨ calculateScore x = 75 ∨ calculateScore x = 60 ∨
      calculateScore x = 45 ∨ calculateScore x = 30) ∧
    (∀ (baseUrl : String) (audits : List PageAudit),
      30 ≤ (buildReport baseUrl audits).score ∧ (buildReport baseUrl audits).score ≤ 90 ∧
      (buildReport baseUrl audits).score ≠ 0 ∧ (buildReport baseUrl audits).score ≠ 100) := by
  refine ⟨calculateScore_mem, fun baseUrl audits => ?_⟩
  have h := calculateScore_mem
    (jsAvg (audits.foldl (fun s a => s + a.loadTime) 0) audits.length)
  simp only [buildReport]
  rcases h with h | h | h | h | h <;> rw [h] <;> norm_num

/-- C10: there is a PageMetrics input with a non-empty findings list and an
empty fixes list: a load time strictly between 2.5s and 4s fires only the
lower load-time tier, which emits a finding but no fix, and the non-empty
findings list suppresses the fallback fix. -/
theorem finding_without_fix_exists :
    ∃ d : FindingsData, 2.5 < d.loadTime ∧ d.loadTime < 4 ∧
      (generateFindings d).findings ≠ [] ∧ (generateFindings d).fixes = [] := by
  refine ⟨⟨3, 10, 0, 0, 0, none, none, false⟩, by norm_num, by norm_num, ?_, ?_⟩ <;>
    norm_num [generateFindings, emittedFindings, emittedFixes, fixesBeforeSort, jsGtOpt,
      List.insertionSort]

/-- C8 counterexample: on the two-hyphen pattern `/get-in-touch` the code
produces the label "Get in-touch" (JS `replace` with a string needle only
replaces the first occurrence), not the claimed "Get in touch". -/
theorem label_not_all_hyphens :
    pageLabel "/get-in-touch" = "Get in-touch" ∧ pageLabel "/get-in-touch" ≠ "Get in touch" := by
  constructor
  · decide
  · decide

/-- C8 amended: for every path pattern in the discovery table, the label is
derived by stripping the leading slash, replacing only the FIRST hyphen with
a space, and capitalizing the first letter. -/
theorem label_first_hyphen_only :
    ∀ p ∈ PAGE_PATTERNS.flatMap Prod.snd, pageLabel p = labelAmended p := by
  decide

/-- Witness for the amended C8 theorem at the pattern `/get-in-touch`. -/
theorem label_first_hyphen_only_witness :
    pageLabel "/get-in-touch" = labelAmended "/get-in-touch" :=
  label_first_hyphen_only "/get-in-touch" (by decide)

lemma takeScheme_eq_none (l : List Char) (h : ':' ∉ l) : takeScheme l = none := by
  induction l with
  | nil => rfl
  | cons c cs ih =>
    simp only [List.mem_cons, not_or] at h
    simp only [takeScheme, if_neg (Ne.symm h.1), ih h.2]

/-- C3 counterexample: even in an environment where every probe succeeds,
the scheme-less input "example.com" makes runAudit fail with the invalid-URL
error instead of being normalized to https:// and proceeding. -/
theorem schemeless_url_not_normalized :
    runAudit envAllOk "example.com" = Except.error RunError.invalidUrl := rfl

/-- C3 amended: an input string with no scheme separator at all (no colon),
such as "example.com", is rejected by runAudit as an invalid URL before any
network activity (the result does not depend on the environment); runAudit
performs no https:// defaulting for scheme-less input. -/
theorem schemeless_url_rejected :
    ∀ (env : Env) (s : String), ':' ∉ s.toList →
      runAudit env s = Except.error RunError.invalidUrl := by
  intro env s h
  have hn : newURL s = none := by
    unfold newURL
    rw [takeScheme_eq_none s.toList h]
  simp [runAudit, hn]

/-- Witness for the amended C3 theorem at the input "example.com". -/
theorem schemeless_url_rejected_witness :
    runAudit envNoPages "example.com" = Except.error RunError.invalidUrl :=
  schemeless_url_rejected envNoPages "example.com" (by decide)

/-- C1 is false of the code (code bug): in a run where the site is reachable
but every page drive fails, runAudit still returns a report: the mean of
zero load times is `0/0 = NaN`, every comparison in calculateScore is false,
and the report carries score 30 — there is no `NoPagesSucceeded` error in
the source at all.  This theorem evaluates the orchestrator at such a run. -/
theorem zero_pages_still_returns_report :
    scoreOf (runAudit envNoPages "http://example.com") = some 30 ∧
    (runAudit envNoPages "http://example.com") ≠ Except.error RunError.invalidUrl ∧
    (runAudit envNoPages "http://example.com") ≠ Except.error RunError.unreachable := by
  have hs : scoreOf (runAudit envNoPages "http://example.com") = some 30 := by decide
  refine ⟨hs, fun h => ?_, fun h => ?_⟩ <;> rw [h] at hs <;> simp [scoreOf] at hs

lemma jsGtOpt_none (c : ℤ) : jsGtOpt none c = false := rfl

/-- If no rule of 1-7 fires, no finding and no fix is pushed before the
fallback block. -/
lemma emitted_empty_of_quiet (d : FindingsData)
    (h1 : d.loadTime ≤ 2.5)
    (h2 : ∀ r, d.largestResource = some r → r.size ≤ 1000000)
    (h3 : d.totalRequests ≤ 50)
    (h4 : jsGtOpt d.totalSize 5000000 = false)
    (h5 : d.thirdPartyScripts ≤ 5)
    (h6 : d.hasForms = false)
    (h7 : d.imageCount ≤ 30) :
    emittedFindings d = [] ∧ emittedFixes d = [] := by
  have c1 : ¬(4 < d.loadTime) := by linarith
  have c2 : ¬((2.5 : ℚ) < d.loadTime) := not_lt.mpr h1
  have c3 : ¬(100 < d.totalRequests) := by omega
  have c4 : ¬(50 < d.totalRequests) := by omega
  have c5 : ¬(8 < d.thirdPartyScripts) := by omega
  have c6 : ¬(5 < d.thirdPartyScripts) := by omega
  have c7 : ¬(30 < d.imageCount) := by omega
  rcases hlr : d.largestResource with _ | r
  · simp [emittedFindings, emittedFixes, hlr, c1, c2, c3, c4, c5, c6, c7, h4, h6]
  · have hr : ¬(1000000 < r.size) := not_lt.mpr (h2 r hlr)
    simp [emittedFindings, emittedFixes, hlr, hr, c1, c2, c3, c4, c5, c6, c7, h4, h6]

/-- C7: when none of rules 1-7 fires (each metric at or below its lowest
threshold, stated as the negation of every rule guard), the engine emits
exactly the one low-severity "general" fallback finding and exactly the one
priority-1 fallback fix; and for every input the findings list is
non-empty. -/
theorem fallback_rule :
    (∀ d : FindingsData,
      d.loadTime ≤ 2.5 →
      (∀ r, d.largestResource = some r → r.size ≤ 1000000) →
      d.totalRequests ≤ 50 →
      jsGtOpt d.totalSize 5000000 = false →
      d.thirdPartyScripts ≤ 5 →
      d.hasForms = false →
      d.imageCount ≤ 30 →
      (generateFindings d).findings = [fallbackFinding] ∧
      (generateFindings d).fixes = [fallbackFix]) ∧
    (∀ d : FindingsData, (generateFindings d).findings ≠ []) := by
  constructor
  · intro d h1 h2 h3 h4 h5 h6 h7
    obtain ⟨he1, he2⟩ := emitted_empty_of_quiet d h1 h2 h3 h4 h5 h6 h7
    constructor
    · simp [generateFindings, he1]
    · simp [generateFindings, fixesBeforeSort, he1, he2, List.insertionSort, List.orderedInsert]
  · intro d
    by_cases he : emittedFindings d = [] <;> simp [generateFindings, he]

/-- Witness for C7 at the quiet input from the spec's §8 scenario
(load time 1.5s, 40 requests, no largest resource, 2 third-party scripts,
no form issues, 5 images). -/
theorem fallback_rule_witness :
    (generateFindings ⟨1.5, 40, 5, 3, 2, none, none, false⟩).findings = [fallbackFinding] ∧
    (generateFindings ⟨1.5, 40, 5, 3, 2, none, none, false⟩).fixes = [fallbackFix] :=
  fallback_rule.1 ⟨1.5, 40, 5, 3, 2, none, none, false⟩
    (by norm_num) (fun r h => Option.noConfusion h) (by norm_num) rfl (by norm_num) rfl
    (by norm_num)

/-- `all` is preserved by the fix sort. -/
lemma all_insertionSort (p : Fix → Bool) (l : List Fix) (h : l.all p = true) :
    ((List.insertionSort fixLE l).all p) = true := by
  rw [List.all_eq_true] at h ⊢
  intro f hf
  exact h f ((List.mem_insertionSort fixLE).mp hf)

set_option maxHeartbeats 2000000 in
/-- With no `totalSize` supplied, no finding carries the total-weight
threshold. -/
lemma findings_no_weight (d : FindingsData) (h : d.totalSize = none) :
    ((generateFindings d).findings.all fun f => f.threshold != "Target: <3MB") = true := by
  obtain ⟨lt, tr, ic, sc, tps, lr, ts, hforms⟩ := d
  replace h : ts = none := h
  subst h
  simp only [generateFindings]
  split
  · decide
  · simp only [emittedFindings, jsGtOpt_none, Bool.false_eq_true, if_false]
    cases lr <;> cases hforms <;> dsimp only <;> split_ifs <;> decide

set_option maxHeartbeats 2000000 in
/-- With no `totalSize` supplied, no fix carries the reduce-weight action. -/
lemma fixes_no_weight (d : FindingsData) (h : d.totalSize = none) :
    ((generateFindings d).fixes.all fun f => f.action != "Reduce total page weight") = true := by
  have hall : ((fixesBeforeSort d).all fun f => f.action != "Reduce total page weight") = true := by
    obtain ⟨lt, tr, ic, sc, tps, lr, ts, hforms⟩ := d
    replace h : ts = none := h
    subst h
    simp only [fixesBeforeSort, emittedFixes, jsGtOpt_none, Bool.false_eq_true, if_false]
    cases lr <;> cases hforms <;> dsimp only <;> split_ifs <;> decide
  exact all_insertionSort _ _ hall

/-- C2 is false of the code (code bug): the spec's rule-4 input `totalSize`
is never computed by `auditPage` nor passed to `generateFindings`, so the
comparison reads `undefined` and the total-weight rule can never fire: even
when the captured events sum to more than 5MB, the per-page findings never
contain the total-weight finding (threshold "Target: <3MB") and the fixes
never contain the priority-2 "Reduce total page weight" fix. -/
theorem totalWeight_rule_never_fires :
    ∀ (page : CandidatePage) (r : DriveResult),
      5000000 < r.events.foldl (fun s e => s + e.size) 0 →
      ((auditPage page r).findings.findings.all fun f => f.threshold != "Target: <3MB") = true ∧
      ((auditPage page r).findings.fixes.all fun f => f.action != "Reduce total page weight")
        = true := by
  intro page r _
  exact ⟨findings_no_weight _ rfl, fixes_no_weight _ rfl⟩

/-- Witness for C2 at a drive with one 6MB image event. -/
theorem totalWeight_rule_never_fires_witness :
    5000000 <
      ([⟨"http://example.com/a.jpg", "image", "GET", some 200, 6000000⟩] : List NetworkEvent).foldl
        (fun s e => s + e.size) 0 ∧
    ((auditPage (homepageEntry "http://example.com")
        ⟨[⟨"http://example.com/a.jpg", "image", "GET", some 200, 6000000⟩], 1, false⟩
      ).findings.findings.all fun f => f.threshold != "Target: <3MB") = true ∧
    ((auditPage (homepageEntry "http://example.com")
        ⟨[⟨"http://example.com/a.jpg", "image", "GET", some 200, 6000000⟩], 1, false⟩
      ).findings.fixes.all fun f => f.action != "Reduce total page weight") = true :=
  ⟨by decide,
   totalWeight_rule_never_fires (homepageEntry "http://example.com")
     ⟨[⟨"http://example.com/a.jpg", "image", "GET", some 200, 6000000⟩], 1, false⟩ (by decide)⟩

/-- Inserting `x` into a list moves it past exactly the entries with a
strictly smaller key, so the per-key sublists are preserved (with `x`
prepended to its own key class). -/
lemma orderedInsert_filter (x : Fix) (k : ℤ) :
    ∀ l : List Fix,
      ((List.orderedInsert fixLE x l).filter fun f => fixKey f == k) =
        if fixKey x = k then x :: l.filter (fun f => fixKey f == k)
        else l.filter fun f => fixKey f == k
  | [] => by
    by_cases hk : fixKey x = k <;> simp [hk]
  | y :: ys => by
    by_cases hxy : fixLE x y
    · simp only [List.orderedInsert]
      rw [if_pos hxy]
      by_cases hk : fixKey x = k <;> simp [List.filter_cons, hk]
    · have hlt : fixKey y < fixKey x := lt_of_not_le hxy
      have ih := orderedInsert_filter x k ys
      simp only [List.orderedInsert]
      rw [if_neg hxy]
      by_cases hyk : fixKey y = k
      · have hxk : fixKey x ≠ k := by omega
        simp [List.filter_cons, hyk, hxk, ih]
      · by_cases hxk : fixKey x = k <;> simp [List.filter_cons, hyk, hxk, ih]

/-- Stability of the fix sort: for every key value, the subsequence of fixes
with that key is exactly the one of the unsorted input. -/
lemma insertionSort_filter (k : ℤ) :
    ∀ l : List Fix,
      ((List.insertionSort fixLE l).filter fun f => fixKey f == k) =
        l.filter fun f => fixKey f == k
  | [] => rfl
  | x :: xs => by
    have ih := insertionSort_filter k xs
    by_cases hk : fixKey x = k <;>
      simp [List.insertionSort, orderedInsert_filter, hk, ih, List.filter_cons]

set_option maxHeartbeats 2000000 in
/-- Every fix the engine can push carries an explicit priority. -/
lemma fixesBeforeSort_priority_isSome (d : FindingsData) :
    ((fixesBeforeSort d).all fun f => f.priority.isSome) = true := by
  obtain ⟨lt, tr, ic, sc, tps, lr, ts, hforms⟩ := d
  simp only [fixesBeforeSort, emittedFixes]
  cases lr <;> dsimp only <;> split_ifs <;> decide

/-- C6: for every input, the returned fixes are sorted non-decreasing by the
priority comparator key, and the sort is stable: for each key value the
fixes with that key appear exactly in their rule-table emission order
(`fixesBeforeSort`).  Every emitted fix has an explicit priority, so the
missing-priority clause (key 99, after all table priorities) is vacuous on
real outputs. -/
theorem fixes_sorted_stable :
    ∀ d : FindingsData,
      List.Sorted fixLE (generateFindings d).fixes ∧
      (∀ k : ℤ, ((generateFindings d).fixes.filter fun f => fixKey f == k) =
        ((fixesBeforeSort d).filter fun f => fixKey f == k)) ∧
      ((generateFindings d).fixes.all fun f => f.priority.isSome) = true := by
  intro d
  refine ⟨?_, fun k => ?_, ?_⟩
  · exact List.sorted_insertionSort fixLE (fixesBeforeSort d)
  · simp only [generateFindings]
    exact insertionSort_filter k (fixesBeforeSort d)
  · simp only [generateFindings]
    exact all_insertionSort _ _ (fixesBeforeSort_priority_isSome d)

/-- A page emitted by the inner pattern loop carries its category. -/
lemma tryPatterns_type (probe : String → Option ℕ) (host cat : String) :
    ∀ pats pg, tryPatterns probe host cat pats = some pg → pg.type = cat
  | [], pg => by simp [tryPatterns]
  | p :: rest, pg => by
    simp only [tryPatterns]
    split
    · intro h
      cases h
      rfl
    · exact tryPatterns_type probe host cat rest pg

/-- The inner pattern loop emits exactly the first pattern whose probe
returns status 200. -/
lemma tryPatterns_eq_find (probe : String → Option ℕ) (host cat : String) :
    ∀ pats, tryPatterns probe host cat pats =
      (pats.find? fun q => probe (host ++ q) == some 200).map (mkPage host cat)
  | [] => rfl
  | p :: rest => by
    simp only [tryPatterns, List.find?]
    by_cases h : (probe (host ++ p) == some 200) = true
    · simp [h]
    · simp only [Bool.not_eq_true] at h
      simp [h, tryPatterns_eq_find probe host cat rest]

/-- The emitted categories form a sublist of the table's category order. -/
lemma discoverLoop_types_sublist (probe : String → Option ℕ) (host : String) :
    ∀ tbl, ((discoverLoop probe host tbl).map CandidatePage.type).Sublist (tbl.map Prod.fst)
  | [] => by simp [discoverLoop]
  | (cat, pats) :: rest => by
    simp only [discoverLoop]
    cases htry : tryPatterns probe host cat pats with
    | none =>
      simp only [List.map_cons]
      exact List.Sublist.cons _ (discoverLoop_types_sublist probe host rest)
    | some pg =>
      simp only [List.map_cons]
      rw [tryPatterns_type probe host cat pats pg htry]
      exact List.Sublist.cons₂ _ (discoverLoop_types_sublist probe host rest)

/-- A category absent from the table is never emitted. -/
lemma discoverLoop_countP_zero (probe : String → Option ℕ) (host cat : String)
    (tbl : List (String × List String)) (h : cat ∉ tbl.map Prod.fst) :
    ((discoverLoop probe host tbl).countP fun pg => pg.type == cat) = 0 := by
  have hs := List.Sublist.countP_le (p := fun s => s == cat)
    (discoverLoop_types_sublist probe host tbl)
  rw [List.countP_map] at hs
  have h0 : ((tbl.map Prod.fst).countP fun s => s == cat) = 0 := by
    rw [List.countP_eq_zero]
    intro a ha
    simp only [beq_iff_eq]
    exact fun hac => h (hac ▸ ha)
  rw [h0] at hs
  exact Nat.le_zero.mp hs

/-- With distinct table categories, each category is emitted at most once. -/
lemma discoverLoop_countP_le (probe : String → Option ℕ) (host cat : String)
    (tbl : List (String × List String)) (h : (tbl.map Prod.fst).Nodup) :
    ((discoverLoop probe host tbl).countP fun pg => pg.type == cat) ≤ 1 := by
  have hs := List.Sublist.countP_le (p := fun s => s == cat)
    (discoverLoop_types_sublist probe host tbl)
  rw [List.countP_map] at hs
  have h2 : ((tbl.map Prod.fst).countP fun s => s == cat) ≤ 1 := by
    have := List.nodup_iff_count_le_one.mp h cat
    simpa [List.count] using this
  exact le_trans hs h2

/-- If some pattern of a table row probes 200, the row's first such pattern
is emitted. -/
lemma discoverLoop_mem (probe : String → Option ℕ) (host cat : String) (pats : List String)
    (p : String)
    (hfind : (pats.find? fun q => probe (host ++ q) == some 200) = some p) :
    ∀ tbl, (cat, pats) ∈ tbl → mkPage host cat p ∈ discoverLoop probe host tbl
  | [], hmem => absurd hmem (List.not_mem_nil _)
  | (c0, p0) :: rest, hmem => by
    rcases List.mem_cons.mp hmem with heq | hmem2
    · cases heq
      simp only [discoverLoop, tryPatterns_eq_find, hfind, Option.map_some]
      exact List.mem_cons_self _ _
    · simp only [discoverLoop]
      cases htry : tryPatterns probe host c0 p0 with
      | none => exact discoverLoop_mem probe host cat pats p hfind rest hmem2
      | some pg =>
        exact List.mem_cons_of_mem _ (discoverLoop_mem probe host cat pats p hfind rest hmem2)

/-- If no pattern of a table row probes 200, the row's category is never
emitted. -/
lemma discoverLoop_none_countP (probe : String → Option ℕ) (host cat : String)
    (pats : List String)
    (hfind : (pats.find? fun q => probe (host ++ q) == some 200) = none) :
    ∀ tbl, (tbl.map Prod.fst).Nodup → (cat, pats) ∈ tbl →
      ((discoverLoop probe host tbl).countP fun pg => pg.type == cat) = 0
  | [], _, hmem => absurd hmem (List.not_mem_nil _)
  | (c0, p0) :: rest, hnd, hmem => by
    simp only [List.map_cons] at hnd
    obtain ⟨hc0, hndr⟩ := List.nodup_cons.mp hnd
    rcases List.mem_cons.mp hmem with heq | hmem2
    · cases heq
      simp only [discoverLoop, tryPatterns_eq_find, hfind, Option.map_none]
      exact discoverLoop_countP_zero probe host cat rest hc0
    · have hcat : cat ∈ rest.map Prod.fst := List.mem_map_of_mem Prod.fst hmem2
      have hne : c0 ≠ cat := fun hh => hc0 (hh ▸ hcat)
      simp only [discoverLoop]
      cases htry : tryPatterns probe host c0 p0 with
      | none => exact discoverLoop_none_countP probe host cat pats hfind rest hndr hmem2
      | some pg =>
        have hty : (pg.type == cat) = false := by
          rw [tryPatterns_type probe host c0 p0 pg htry]
          exact beq_eq_false_iff_ne.mpr hne
        rw [List.countP_cons, hty]
        simp [discoverLoop_none_countP probe host cat pats hfind rest hndr hmem2]

/-- C5: for every probe environment and parsed base URL, the discovered list
has the homepage entry exactly once and first; every category appears at
most once; the category order is a sublist of the fixed table order; a
category whose first 200-pattern is `p` contributes the page built from `p`;
and a category with no 200-pattern (all probes erroring, timing out, or
non-200) contributes nothing. -/
theorem discovery_structure :
    ∀ (probe : String → Option ℕ) (baseUrl : String) (u : URLRec),
      newURL baseUrl = some u →
      (discoverMoneyPages probe baseUrl).head? = some (homepageEntry baseUrl) ∧
      ((discoverMoneyPages probe baseUrl).countP fun pg => pg.type == "homepage") = 1 ∧
      (∀ cat : String, ((discoverMoneyPages probe baseUrl).countP fun pg => pg.type == cat) ≤ 1) ∧
      ((discoverMoneyPages probe baseUrl).map CandidatePage.type).Sublist
        ("homepage" :: PAGE_PATTERNS.map Prod.fst) ∧
      (∀ cat pats, (cat, pats) ∈ PAGE_PATTERNS →
        ∀ p, (pats.find? fun q => probe (baseHost u ++ q) == some 200) = some p →
          mkPage (baseHost u) cat p ∈ discoverMoneyPages probe baseUrl) ∧
      (∀ cat pats, (cat, pats) ∈ PAGE_PATTERNS →
        (pats.find? fun q => probe (baseHost u ++ q) == some 200) = none →
          ((discoverMoneyPages probe baseUrl).countP fun pg => pg.type == cat) = 0) := by
  intro probe baseUrl u h
  have hout : discoverMoneyPages probe baseUrl
      = homepageEntry baseUrl :: discoverLoop probe (baseHost u) PAGE_PATTERNS := by
    simp [discoverMoneyPages, h]
  have hnd : (PAGE_PATTERNS.map Prod.fst).Nodup := by decide
  have hhk : "homepage" ∉ PAGE_PATTERNS.map Prod.fst := by decide
  refine ⟨?_, ?_, ?_, ?_, ?_, ?_⟩
  · rw [hout]
    rfl
  · rw [hout, List.countP_cons,
      discoverLoop_countP_zero probe (baseHost u) "homepage" PAGE_PATTERNS hhk]
    simp [homepageEntry]
  · intro cat
    rw [hout, List.countP_cons]
    by_cases hc : cat = "homepage"
    · subst hc
      rw [discoverLoop_countP_zero probe (baseHost u) "homepage" PAGE_PATTERNS hhk]
      simp [homepageEntry]
    · have hle := discoverLoop_countP_le probe (baseHost u) cat PAGE_PATTERNS hnd
      have hcond : ((homepageEntry baseUrl).type == cat) = false := by
        simp only [homepageEntry]
        exact beq_eq_false_iff_ne.mpr (Ne.symm hc)
      rw [hcond]
      simpa using hle
  · rw [hout]
    simp only [List.map_cons]
    exact List.Sublist.cons₂ _ (discoverLoop_types_sublist probe (baseHost u) PAGE_PATTERNS)
  · intro cat pats hmem p hfind
    rw [hout]
    exact List.mem_cons_of_mem _
      (discoverLoop_mem probe (baseHost u) cat pats p hfind PAGE_PATTERNS hmem)
  · intro cat pats hmem hfind
    have hcne : cat ≠ "homepage" := by
      intro hh
      subst hh
      exact hhk (List.mem_map_of_mem Prod.fst hmem)
    have hcond : ((homepageEntry baseUrl).type == cat) = false := by
      simp only [homepageEntry]
      exact beq_eq_false_iff_ne.mpr (Ne.symm hcne)
    rw [hout, List.countP_cons, hcond,
      discoverLoop_none_countP probe (baseHost u) cat pats hfind PAGE_PATTERNS hnd hmem]
    simp

/-- Witness for C5: a probe under which every pattern fails still yields the
homepage entry first. -/
theorem discovery_structure_witness :
    (discoverMoneyPages (fun _ => none) "http://example.com").head? =
      some (homepageEntry "http://example.com") :=
  (discovery_structure (fun _ => none) "http://example.com" ⟨"http:", "example.com", ""⟩
    (by decide)).1

end SpeedAudit
